import Mathlib

/-!
Shallow embedding of `model.py` (dastNeuron): a feature extractor
(CNN backbone + LSTM + 1x1 convolution, with randomized sub-window
averaging), a regression head and a 2-class classifier head.

Tensors are modelled as a shape (a list of dimension sizes) together with a
row-major index-to-value map into the reals.  The backbone CNN, the LSTM cell
and the 1x1 convolution block live in sibling modules (`arch/`) or in the
external framework; their value-level behaviour is carried as abstract data
fields of the `FeatureExtractor` structure while their shape behaviour
(documented in the spec: rank-3 `[batch, channels, time_steps]` in and out)
is explicit.  Randomness (the index shuffle, the `randint` draw, the Xavier
draws of `init_hidden`) is passed in explicitly, so a fixed seed corresponds
to fixed arguments.  Python `assert` failures and library `ValueError`s are
modelled with `Except String`.
-/

/-- A tensor: shape plus a (total) map from multi-indices to values. -/
structure Tensor where
  shape : List Nat
  data : List Nat → ℝ

/-- Size of dimension 0 (`t.shape[0]`). -/
def dim0 (t : Tensor) : Nat := t.shape.getD 0 0

/-- Size of dimension 1 (`t.shape[1]`). -/
def dim1 (t : Tensor) : Nat := t.shape.getD 1 0

/-- Size of dimension 2 (`t.shape[2]`). -/
def dim2 (t : Tensor) : Nat := t.shape.getD 2 0

/-- Size of the last dimension (`t.shape[-1]`). -/
def dimLast (t : Tensor) : Nat := t.shape.getLast?.getD 0

/-- The all-zero default tensor (used only as a `headD` fallback). -/
def Tensor.empty : Tensor := ⟨[], fun _ => 0⟩

/-- Rendering of a tensor shape, as `torch.Size([...])` prints it. -/
def shapeStr (s : List Nat) : String := "torch.Size(" ++ toString s ++ ")"

/-- `t.unsqueeze(1)`: insert a dimension of size 1 at position 1. -/
def Tensor.unsqueezeDim1 (t : Tensor) : Tensor :=
  ⟨t.shape.take 1 ++ 1 :: t.shape.drop 1,
   fun idx => t.data (idx.take 1 ++ idx.drop 2)⟩

/-- `x.permute((2, 0, 1))` on a rank-3 tensor `[B, C, T] -> [T, B, C]`. -/
def permute201 (t : Tensor) : Tensor :=
  ⟨[t.shape.getD 2 0, t.shape.getD 0 0, t.shape.getD 1 0],
   fun idx => t.data [idx.getD 1 0, idx.getD 2 0, idx.getD 0 0]⟩

/-- `x.permute((1, 2, 0))` on a rank-3 tensor `[T, B, C] -> [B, C, T]`. -/
def permute120 (t : Tensor) : Tensor :=
  ⟨[t.shape.getD 1 0, t.shape.getD 2 0, t.shape.getD 0 0],
   fun idx => t.data [idx.getD 2 0, idx.getD 0 0, idx.getD 1 0]⟩

/-- `dynamic[..., a:b]`: slice of the last dimension with Python clamping. -/
def sliceLast (t : Tensor) (a b : Nat) : Tensor :=
  ⟨t.shape.dropLast ++ [min b (dimLast t) - min a (dimLast t)],
   fun idx => t.data (idx.dropLast ++ [min a (dimLast t) + idx.getLast?.getD 0])⟩

/-- Data of `torch.cat(ts, dim=1)`: walk the list to locate index 1. -/
def catDim1Data : List Tensor → List Nat → ℝ
  | [], _ => 0
  | t :: ts, idx =>
    let j := idx.getD 1 0
    if j < dim1 t then t.data (idx.set 1 j)
    else catDim1Data ts (idx.set 1 (j - dim1 t))

/-- `torch.cat(ts, dim=1)`.  (On an empty list torch raises; the claims never
reach that case, keeping this total is harmless.) -/
def catDim1 (ts : List Tensor) : Tensor :=
  ⟨(ts.headD Tensor.empty).shape.set 1 ((ts.map dim1).sum), catDim1Data ts⟩

/-- `torch.mean(x, dim=1)`. -/
noncomputable def meanDim1 (t : Tensor) : Tensor :=
  ⟨t.shape.take 1 ++ t.shape.drop 2,
   fun idx => (∑ j ∈ Finset.range (dim1 t),
      t.data (idx.take 1 ++ j :: idx.drop 1)) / (dim1 t)⟩

/-- Row-major decoding of a flat offset into a multi-index over `dims`. -/
def unflattenIdx : List Nat → Nat → List Nat
  | [], _ => []
  | d :: ds, n => (n / ds.prod) % d :: unflattenIdx ds (n % ds.prod)

/-- `torch.flatten(x, start_dim=1, end_dim=-1)`. -/
def Tensor.flatten1 (t : Tensor) : Tensor :=
  ⟨t.shape.take 1 ++ [(t.shape.drop 1).prod],
   fun idx => t.data (idx.take 1 ++ unflattenIdx (t.shape.drop 1) (idx.getD 1 0))⟩

/-- The `resdim` table of `FeatureExtractor.__init__`:
`{18: 512, 34: 512, 50: 2048, 101: 2048, 152: 2048}`. -/
def resdim (c : Nat) : Nat :=
  if c = 18 then 512 else if c = 34 then 512
  else if c = 50 then 2048 else if c = 101 then 2048
  else if c = 152 then 2048 else 0

/-- An `nn.Parameter`, with its GPU residency tracked (`.cuda()`). -/
structure Param where
  tensor : Tensor
  requiresGrad : Bool
  onGpu : Bool

/-- A constructed `FeatureExtractor`.  Configuration fields mirror the
source; `convT` and `convData` model the shape/value behaviour of the
`arch/` ResNet backbone (not in `src/`; spec: rank-3 `[batch, channels,
time_steps]` output), `lstmData` and `conv1x1Data` the value behaviour of the
external `nn.LSTM` / `nn.Conv1d + LeakyReLU` blocks (shape-preserving resp.
channel-512 producing), and `hDraw`/`cDraw` the Xavier-uniform random draws
consumed by `init_hidden` under a fixed seed. -/
structure FeatureExtractor where
  time_len : Nat
  sequence_num : Nat
  cnn_config : Nat
  time_type : String
  cuda : Bool
  convT : Nat → Nat
  convData : Tensor → List Nat → ℝ
  lstmData : Tensor → Option (Param × Param) → List Nat → ℝ
  conv1x1Data : Tensor → List Nat → ℝ
  hDraw : List Nat → ℝ
  cDraw : List Nat → ℝ

/-- `self.time_hid_dim = conv_last_dim` (from the `resdim` table). -/
def FeatureExtractor.time_hid_dim (fe : FeatureExtractor) : Nat :=
  resdim fe.cnn_config

/-- `self.conv(dynamic)`.  Modelled from the spec: the `arch/` backbone is
not under `src/`; per the spec it maps `[batch, in_channels, L]` to rank-3
`[batch, conv_last_dim, time_steps]`, with `convT` the temporal-length map
and `convData` the abstract values. -/
def FeatureExtractor.convApply (fe : FeatureExtractor) (t : Tensor) : Tensor :=
  ⟨[dim0 t, resdim fe.cnn_config, fe.convT (dim2 t)], fe.convData t⟩

/-- `self.time_net(x, h0?)`: `nn.LSTM(d, d)` output, shape-preserving on
`[T, B, d]` (the `(output, (h, c))` tuple unwrap of line 126-127 folded in). -/
def FeatureExtractor.lstmApply (fe : FeatureExtractor) (t : Tensor)
    (h0 : Option (Param × Param)) : Tensor :=
  ⟨t.shape, fe.lstmData t h0⟩

/-- `self.conv1x1(x)`: `nn.Conv1d(d, 512, kernel_size=1)` then `LeakyReLU`;
`[B, C, T] -> [B, 512, T]`. -/
def FeatureExtractor.conv1x1Apply (fe : FeatureExtractor) (t : Tensor) : Tensor :=
  ⟨[dim0 t, 512, dim2 t], fe.conv1x1Data t⟩

/-- `FeatureExtractor.init_hidden` (source lines 80-92).  `h` is a fresh
Xavier draw, moved to the GPU when `_cuda`; for the lstm case `c` starts as an
independent fresh Xavier draw but, when `_cuda`, is overwritten by
`document_rnn_init_h.cuda()` (line 91), a copy of the GPU-resident `h`. -/
def FeatureExtractor.init_hidden (fe : FeatureExtractor)
    (hidden_dim batch layer : Nat) : Option (Param × Param) :=
  let h : Param := ⟨⟨[layer, batch, hidden_dim], fe.hDraw⟩, true, false⟩
  let h := if fe.cuda then { h with onGpu := true } else h
  if fe.time_type == "lstm" then
    let c : Param := ⟨⟨[layer, batch, hidden_dim], fe.cDraw⟩, true, false⟩
    let c := if fe.cuda then { h with onGpu := true } else c
    some (h, c)
  else none

/-- `FeatureExtractor.get_feature` (source lines 113-131).  The `batch`
argument is immediately overwritten by `dynamic.shape[0]` (line 114); rank-2
input is unsqueezed at dim 1; the channel-count assertion failure carries the
(post-unsqueeze) shape and the configured `sequence_num`. -/
def FeatureExtractor.get_feature (fe : FeatureExtractor) (dynamic : Tensor)
    (batch : Nat) (reset : Bool) : Except String Tensor :=
  let batch := dim0 dynamic
  let dynamic := if dynamic.shape.length = 2 then dynamic.unsqueezeDim1 else dynamic
  if dim1 dynamic = fe.sequence_num then
    let x := fe.convApply dynamic
    let x := permute201 x
    let x := if reset && (fe.time_type == "lstm") then
        fe.lstmApply x (fe.init_hidden fe.time_hid_dim batch 1)
      else fe.lstmApply x none
    let x := permute120 x
    let x := fe.conv1x1Apply x
    .ok x
  else
    .error ("Dynamic shape: " ++ shapeStr dynamic.shape ++ " seq num: "
      ++ toString fe.sequence_num)

/-- `off = np.random.randint(1, k + 1)` for a raw draw `r`: a value in
`[1, k]`. -/
def offOf (r k : Nat) : Nat := 1 + r % k

/-- The window indices `forward` maps `get_feature` over: the first `off`
entries of the shuffled index list `_idx`. -/
def windowsUsed (shuffled : List Nat) (r k : Nat) : List Nat :=
  shuffled.take (offOf r k)

/-- `FeatureExtractor.forward` (source lines 94-111).  `shuffled` is the
result of `np.random.shuffle` on `np.arange(k)` and `r` the raw `randint`
draw, both made explicit; with `feature=None` the divisibility assertion
carries the series shape, `k = 0` reproduces the `ValueError` numpy raises
from `randint(1, 1)`, and `time_len = 0` the Python `ZeroDivisionError` of
the `%` in the assertion. -/
noncomputable def FeatureExtractor.forward (fe : FeatureExtractor)
    (dynamic : Tensor) (feature : Option (List Tensor))
    (shuffled : List Nat) (r : Nat) (batch : Nat) (reset : Bool) :
    Except String Tensor :=
  match feature with
  | some fs => .ok (Tensor.flatten1 (meanDim1 (catDim1 fs)))
  | none =>
    if fe.time_len = 0 then
      .error "ZeroDivisionError: integer division or modulo by zero"
    else if dimLast dynamic % fe.time_len = 0 then
      let k := dimLast dynamic / fe.time_len
      if k = 0 then .error "ValueError: low >= high"
      else
        match (windowsUsed shuffled r k).mapM (fun i =>
            Except.map Tensor.unsqueezeDim1
              (fe.get_feature
                (sliceLast dynamic (i * fe.time_len) ((i + 1) * fe.time_len))
                batch reset)) with
        | .ok fs => .ok (Tensor.flatten1 (meanDim1 (catDim1 fs)))
        | .error e => .error e
    else .error ("dynamic shape: " ++ shapeStr dynamic.shape)

/-- `self.fc_dim` (source lines 75-78): run `get_feature` on a zero window
`torch.zeros(1, sequence_num, time_len)` with `reset=False, batch=1` and take
`x.view(1, -1).shape[1]`, i.e. the number of elements of the result. -/
def FeatureExtractor.fc_dim (fe : FeatureExtractor) : Nat :=
  match fe.get_feature ⟨[1, fe.sequence_num, fe.time_len], fun _ => 0⟩ 1 false with
  | .ok t => t.shape.prod
  | .error _ => 0

/-- Dot product of a weight row with an input vector (`zip` truncates, as a
well-shaped `nn.Linear` never exercises the ragged case). -/
def dotProd (w x : List ℝ) : ℝ := ((w.zip x).map (fun p => p.1 * p.2)).sum

/-- One `nn.Linear`: weight rows plus per-row biases. -/
structure LinW where
  w : List (List ℝ)
  b : List ℝ

/-- `nn.Linear` applied to a vector: one output per (row, bias) pair. -/
def linearLayer (lw : LinW) (x : List ℝ) : List ℝ :=
  (lw.w.zip lw.b).map (fun p => dotProd p.1 x + p.2)

/-- `nn.LeakyReLU` with the default negative slope 0.01. -/
noncomputable def leakyReLU (x : ℝ) : ℝ := if 0 ≤ x then x else 0.01 * x

/-- `torch.sigmoid`. -/
noncomputable def sigmoid (x : ℝ) : ℝ := 1 / (1 + Real.exp (-x))

/-- The fixed width table `fc_dim_list = [in_dim, 512, 256, 256, 128, 128]`
shared by `Regressioner.__init__` and `Classifier.__init__`. -/
def fc_dim_list (in_dim : Nat) : List Nat := [in_dim, 512, 256, 256, 128, 128]

/-- One intermediate stage of `Regressioner`/`Classifier`:
`Linear -> Dropout(0.1)/Identity -> LeakyReLU`.  `nn.Dropout` is modelled in
eval mode (identity); the claims proved here do not depend on the mask. -/
noncomputable def fcStage (dropout : Bool) (lw : LinW) (x : List ℝ) : List ℝ :=
  let x := linearLayer lw x
  let x := if dropout then x else x
  x.map leakyReLU

/-- A constructed `Regressioner`: `fc_layers` intermediate stages (their
`nn.Linear` weights in order) followed by the final `nn.Linear` to
`output_dim`. -/
structure Regressioner where
  dropout : Bool
  stageW : List LinW
  finalW : LinW

/-- `self.fc`: the `ModuleList` of stages plus final linear (lines 145-159). -/
noncomputable def Regressioner.fc (m : Regressioner) : List (List ℝ → List ℝ) :=
  m.stageW.map (fcStage m.dropout) ++ [linearLayer m.finalW]

/-- Run a prefix of stages, recording each intermediate activation
(the `fc_feature` list of the source). -/
def runStages : List (List ℝ → List ℝ) → List ℝ → List ℝ × List (List ℝ)
  | [], x => (x, [])
  | f :: fs, x =>
    let y := f x
    let p := runStages fs y
    (p.1, y :: p.2)

/-- `Regressioner.forward` (source lines 161-168): run `fc[0.._end)`
(all layers when `_end is None`), return `(sigmoid(x), fc_feature)`. -/
noncomputable def Regressioner.forward (m : Regressioner) (x : List ℝ)
    ( _end : Option Nat) : List ℝ × List (List ℝ) :=
  let e := _end.getD m.fc.length
  let p := runStages (m.fc.take e) x
  (p.1.map sigmoid, p.2)

/-- `ReverseLayerF.apply(x, alpha)`.  Modelled from the spec: the
gradient-reversal primitive lives in `arch/reverselayer` (not under `src/`);
per the spec its forward pass is the identity (`alpha` only scales the
backward gradient). -/
def reverseLayerF (x : List ℝ) (alpha : ℝ) : List ℝ := x

/-- `nn.LogSoftmax(dim=1)` on a row of exactly 2 logits
(the final `nn.Linear(..., 2)` of `Classifier`). -/
noncomputable def logSoftmax2 (y0 y1 : ℝ) : List ℝ :=
  [y0 - Real.log (Real.exp y0 + Real.exp y1),
   y1 - Real.log (Real.exp y0 + Real.exp y1)]

/-- A constructed `Classifier`: intermediate stage weights, then the final
`nn.Linear(fc_dim_list[fc_layers], 2)` given by its two rows. -/
structure Classifier where
  dropout : Bool
  stageW : List LinW
  w0 : List ℝ
  b0 : ℝ
  w1 : List ℝ
  b1 : ℝ

/-- `Classifier.forward` on a single row of the batch: gradient reversal
(identity forward), the `nn.Sequential` stack, the 2-output linear, then
`LogSoftmax(dim=1)` (source lines 186-198). -/
noncomputable def Classifier.forwardRow (c : Classifier) (x : List ℝ)
    (alpha : ℝ) : List ℝ :=
  let x := reverseLayerF x alpha
  let x := (c.stageW.map (fcStage c.dropout)).foldl (fun v f => f v) x
  logSoftmax2 (dotProd c.w0 x + c.b0) (dotProd c.w1 x + c.b1)

/-- `Classifier.forward` on a batch `[B, in_dim]`: `nn.Linear` and
`LogSoftmax(dim=1)` act row-wise. -/
noncomputable def Classifier.forward (c : Classifier) (xs : List (List ℝ))
    (alpha : ℝ) : List (List ℝ) :=
  xs.map (fun x => c.forwardRow x alpha)

/-- The `assert self.fc_layers <= 5 and self.fc_layers > 0` of
`Regressioner.__init__` (line 148). -/
def regressionerAssertOk (fc_layers : Int) : Bool :=
  decide (fc_layers ≤ 5) && decide (0 < fc_layers)

/-- The `assert self.fc_layers <= 5 and self.fc_layers > 0` of
`Classifier.__init__` (line 184). -/
def classifierAssertOk (fc_layers : Int) : Bool :=
  decide (fc_layers ≤ 5) && decide (0 < fc_layers)

/-- The backbone-selection part of `FeatureExtractor.__init__` (lines
40-60): resnet depths 18/34/50/101/152 give `conv_last_dim` from the
`resdim` table; any other depth prints and `sys.exit(-1)`s; any other family
raises `NotImplementedError`.  Both failure modes are `.error`. -/
def featureExtractorBackboneInit (cnn_type : String) (cnn_config : Int) :
    Except String Nat :=
  if cnn_type == "resnet" then
    if cnn_config = 18 then .ok 512
    else if cnn_config = 34 then .ok 512
    else if cnn_config = 50 then .ok 2048
    else if cnn_config = 101 then .ok 2048
    else if cnn_config = 152 then .ok 2048
    else .error ("Current ResNet arch also supports layer: [18, 34, 50, 101, 152], but got "
      ++ toString cnn_config)
  else .error "NotImplementedError"

/-- A concrete cuda-enabled `FeatureExtractor` used by witnesses. -/
def exFE : FeatureExtractor where
  time_len := 2
  sequence_num := 1
  cnn_config := 18
  time_type := "lstm"
  cuda := true
  convT := fun l => l
  convData := fun _ _ => 0
  lstmData := fun _ _ _ => 0
  conv1x1Data := fun _ _ => 0
  hDraw := fun _ => 0
  cDraw := fun _ => 0

/-- A concrete `FeatureExtractor` with `cuda=False` and distinct Xavier
draws for the hidden and cell states. -/
def exFEnc : FeatureExtractor where
  time_len := 2
  sequence_num := 1
  cnn_config := 18
  time_type := "lstm"
  cuda := false
  convT := fun l => l
  convData := fun _ _ => 0
  lstmData := fun _ _ _ => 0
  conv1x1Data := fun _ _ => 0
  hDraw := fun _ => 0
  cDraw := fun _ => 1

/-- A concrete `Classifier` with no intermediate stages. -/
def exClassifier : Classifier where
  dropout := false
  stageW := []
  w0 := [1]
  b0 := 0
  w1 := [0]
  b1 := 0

lemma sigmoid_bounds (x : ℝ) : 0 ≤ sigmoid x ∧ sigmoid x ≤ 1 := by
  have h : (0 : ℝ) < 1 + Real.exp (-x) := by positivity
  constructor
  · exact le_of_lt (div_pos one_pos h)
  · rw [sigmoid, div_le_one h]
    have := Real.exp_pos (-x)
    linarith

lemma getD_map_sigmoid_bounds (l : List ℝ) (i : Nat) :
    0 ≤ (l.map sigmoid).getD i 0 ∧ (l.map sigmoid).getD i 0 ≤ 1 := by
  induction l generalizing i with
  | nil => simp
  | cons a l ih =>
    cases i with
    | zero => simpa using sigmoid_bounds a
    | succ j => simpa using ih j

/-- C2: for every finite input vector and every prefix length `_end`, every
element of the first component of `Regressioner.forward` lies in `[0, 1]`
(it is the sigmoid of the last executed stage's output; out-of-range reads
default to 0, also in `[0, 1]`). -/
theorem c2_regressioner_output_bounded (m : Regressioner) (x : List ℝ)
    ( _end : Option Nat) (i : Nat) :
    0 ≤ (m.forward x _end).1.getD i 0 ∧ (m.forward x _end).1.getD i 0 ≤ 1 :=
  getD_map_sigmoid_bounds _ i

lemma logSoftmax2_spec (y0 y1 : ℝ) :
    (logSoftmax2 y0 y1).length = 2 ∧
    ((logSoftmax2 y0 y1).map Real.exp).sum = 1 := by
  refine ⟨rfl, ?_⟩
  have hS : (0 : ℝ) < Real.exp y0 + Real.exp y1 := by positivity
  simp only [logSoftmax2, List.map_cons, List.map_nil, List.sum_cons,
    List.sum_nil, add_zero, Real.exp_sub, Real.exp_log hS]
  field_simp

/-- C3: every row of the tensor returned by `Classifier.forward` has exactly
2 entries and the sum of the element-wise exponentials of the row equals 1
(a valid log-probability distribution over two classes), for any finite
input and any `alpha`. -/
theorem c3_classifier_log_probabilities (c : Classifier) (xs : List (List ℝ))
    (alpha : ℝ) :
    ∀ row ∈ c.forward xs alpha,
      row.length = 2 ∧ (row.map Real.exp).sum = 1 := by
  intro row hrow
  obtain ⟨x, _, rfl⟩ := List.mem_map.mp hrow
  exact logSoftmax2_spec _ _

/-- Witness for C3 at a concrete classifier, batch and alpha. -/
theorem c3_witness :
    (exClassifier.forwardRow [1] 1).length = 2 ∧
    ((exClassifier.forwardRow [1] 1).map Real.exp).sum = 1 :=
  c3_classifier_log_probabilities exClassifier [[1]] 1
    (exClassifier.forwardRow [1] 1) (List.Mem.head _)

/-- C9: `get_feature` ignores the passed-in `batch` value (it is overwritten
by `dynamic.shape[0]` on line 114), so the result depends only on `dynamic`
and `reset`. -/
theorem c9_get_feature_ignores_batch (fe : FeatureExtractor) (dynamic : Tensor)
    (b1 b2 : Nat) (reset : Bool) :
    fe.get_feature dynamic b1 reset = fe.get_feature dynamic b2 reset := rfl

/-- C10: `get_feature` accepts a rank-2 input `[batch, time_len]`: it inserts
a channel dimension of size 1 before the channel-count assertion, so rank-2
input succeeds exactly when `sequence_num = 1` and produces the same result
as the corresponding rank-3 input. -/
theorem c10_rank2_input (fe : FeatureExtractor) (B L : Nat)
    (d : List Nat → ℝ) (b : Nat) (rs : Bool) :
    ((fe.get_feature ⟨[B, L], d⟩ b rs).toOption.isSome = true ↔
      fe.sequence_num = 1) ∧
    fe.get_feature ⟨[B, L], d⟩ b rs
      = fe.get_feature (Tensor.unsqueezeDim1 ⟨[B, L], d⟩) b rs := by
  constructor
  · show ((if 1 = fe.sequence_num then _ else Except.error _).toOption.isSome
        = true ↔ fe.sequence_num = 1)
    split
    · simp [Except.toOption]; omega
    · simp [Except.toOption]; omega
  · rfl

/-- C7 (amended): `init_hidden` with `time_type = "lstm"` returns a
Xavier-initialized trainable hidden state of shape `[layer, batch,
hidden_dim]`; when `_cuda` is true (the default) the memory-cell state is a
copy of the already-GPU-resident hidden state rather than an independent
fresh Xavier draw, but when `_cuda` is false it is the independent fresh
Xavier draw. -/
theorem c7_init_hidden_cell_copy (fe : FeatureExtractor)
    (hidden_dim batch layer : Nat) (h : fe.time_type = "lstm") :
    fe.init_hidden hidden_dim batch layer =
      some (⟨⟨[layer, batch, hidden_dim], fe.hDraw⟩, true, fe.cuda⟩,
        if fe.cuda then ⟨⟨[layer, batch, hidden_dim], fe.hDraw⟩, true, true⟩
        else ⟨⟨[layer, batch, hidden_dim], fe.cDraw⟩, true, false⟩) := by
  cases hc : fe.cuda <;> simp [FeatureExtractor.init_hidden, h, hc]

/-- Witness for C7 at a concrete cuda-enabled extractor. -/
theorem c7_witness :
    exFE.init_hidden 2 3 1 =
      some (⟨⟨[1, 3, 2], exFE.hDraw⟩, true, exFE.cuda⟩,
        if exFE.cuda then ⟨⟨[1, 3, 2], exFE.hDraw⟩, true, true⟩
        else ⟨⟨[1, 3, 2], exFE.cDraw⟩, true, false⟩) :=
  c7_init_hidden_cell_copy exFE 2 3 1 rfl

/-- C7 counterexample: with `cuda=False` and distinct Xavier draws for the
hidden and cell states, `init_hidden` returns a cell state that is the
independent fresh draw (constantly 1), not a copy of the hidden state
(constantly 0) — so the claim does not hold for *every* call. -/
theorem c7_counterexample :
    exFEnc.init_hidden 2 3 1 =
      some (⟨⟨[1, 3, 2], fun _ => 0⟩, true, false⟩,
        ⟨⟨[1, 3, 2], fun _ => 1⟩, true, false⟩) ∧
    (fun _ : List Nat => (1 : ℝ)) ≠ (fun _ : List Nat => (0 : ℝ)) := by
  refine ⟨rfl, fun hcontra => ?_⟩
  exact one_ne_zero (congrFun hcontra [])

/-- C8: with the random source fixed (same shuffled index list, same raw
`randint` draw, same Xavier draws inside the extractor), two calls to
`forward` with identical input, feature, batch and reset arguments and
identical parameters return identical outputs. -/
theorem c8_forward_deterministic (fe1 fe2 : FeatureExtractor)
    (d1 d2 : Tensor) (f1 f2 : Option (List Tensor)) (sh1 sh2 : List Nat)
    (r1 r2 b1 b2 : Nat) (rs1 rs2 : Bool)
    (hfe : fe1 = fe2) (hd : d1 = d2) (hf : f1 = f2) (hsh : sh1 = sh2)
    (hr : r1 = r2) (hb : b1 = b2) (hrs : rs1 = rs2) :
    fe1.forward d1 f1 sh1 r1 b1 rs1 = fe2.forward d2 f2 sh2 r2 b2 rs2 := by
  subst hfe hd hf hsh hr hb hrs; rfl

/-- Witness for C8 at a concrete extractor, input and random source. -/
theorem c8_witness :
    exFE.forward ⟨[1, 1, 2], fun _ => 0⟩ none [0] 0 1 true =
    exFE.forward ⟨[1, 1, 2], fun _ => 0⟩ none [0] 0 1 true :=
  c8_forward_deterministic exFE exFE _ _ none none [0] [0] 0 0 1 1 true true
    rfl rfl rfl rfl rfl rfl rfl

/-- C5: the `Regressioner` and `Classifier` construction asserts fail exactly
for `fc_layers` outside `[1, 5]`, and the `FeatureExtractor` backbone
selection fails exactly for depths outside `{18, 34, 50, 101, 152}` when the
family is "resnet", and for every family other than "resnet". -/
theorem c5_construction_validation :
    (∀ n : Int, regressionerAssertOk n = false ↔ (n < 1 ∨ 5 < n)) ∧
    (∀ n : Int, classifierAssertOk n = false ↔ (n < 1 ∨ 5 < n)) ∧
    (∀ c : Int, (featureExtractorBackboneInit "resnet" c).toOption = none ↔
      (c ≠ 18 ∧ c ≠ 34 ∧ c ≠ 50 ∧ c ≠ 101 ∧ c ≠ 152)) ∧
    (∀ (s : String) (c : Int), s ≠ "resnet" →
      (featureExtractorBackboneInit s c).toOption = none) := by
  refine ⟨fun n => ?_, fun n => ?_, fun c => ?_, fun s c hs => ?_⟩
  · simp only [regressionerAssertOk, Bool.and_eq_false_iff,
      decide_eq_false_iff_not]
    omega
  · simp only [classifierAssertOk, Bool.and_eq_false_iff,
      decide_eq_false_iff_not]
    omega
  · simp only [featureExtractorBackboneInit, beq_self_eq_true, if_true]
    split_ifs <;> simp_all [Except.toOption]
  · have hb : (s == "resnet") = false := beq_eq_false_iff_ne.mpr hs
    simp [featureExtractorBackboneInit, hb, Except.toOption]

/-- Witness for C5: construction with an unsupported family fails. -/
theorem c5_witness : (featureExtractorBackboneInit "vgg" 18).toOption = none :=
  c5_construction_validation.2.2.2 "vgg" 18 (by decide)

/-- C6: a rank-3 input whose channel count differs from `sequence_num` makes
`get_feature` fail with an assertion message carrying the offending tensor
shape, and (for a configured window length, which is positive) a series whose
length is not divisible by the window length makes `forward` (with
`feature=None`) fail with an assertion message carrying the series shape. -/
theorem c6_assertion_messages :
    (∀ (fe : FeatureExtractor) (B C L : Nat) (d : List Nat → ℝ)
      (b : Nat) (rs : Bool), C ≠ fe.sequence_num →
      fe.get_feature ⟨[B, C, L], d⟩ b rs =
        .error ("Dynamic shape: " ++ shapeStr [B, C, L] ++ " seq num: "
          ++ toString fe.sequence_num)) ∧
    (∀ (fe : FeatureExtractor) (dynamic : Tensor) (sh : List Nat)
      (r b : Nat) (rs : Bool), 0 < fe.time_len →
      ¬ (dimLast dynamic % fe.time_len = 0) →
      fe.forward dynamic none sh r b rs =
        .error ("dynamic shape: " ++ shapeStr dynamic.shape)) := by
  constructor
  · intro fe B C L d b rs hC
    show (if (C = fe.sequence_num) then _ else _) = _
    rw [if_neg hC]
    simp
  · intro fe dynamic sh r b rs htl hmod
    show (if (fe.time_len = 0) then _ else _) = _
    rw [if_neg htl.ne', if_neg hmod]

/-- Witness for C6 at concrete inputs: channel count 2 against
`sequence_num = 1`, and series length 3 against window length 2. -/
theorem c6_witness :
    exFE.get_feature ⟨[1, 2, 2], fun _ => 0⟩ 1 true =
      .error ("Dynamic shape: " ++ shapeStr [1, 2, 2] ++ " seq num: "
        ++ toString exFE.sequence_num) ∧
    exFE.forward ⟨[1, 1, 3], fun _ => 0⟩ none [0] 0 1 true =
      .error ("dynamic shape: " ++ shapeStr [1, 1, 3]) :=
  ⟨c6_assertion_messages.1 exFE 1 2 2 (fun _ => 0) 1 true (by decide),
   c6_assertion_messages.2 exFE ⟨[1, 1, 3], fun _ => 0⟩ [0] 0 1 true
     (by decide) (by decide)⟩

lemma get_feature_ok (fe : FeatureExtractor) (w : Tensor) (B L b : Nat)
    (rs : Bool) (hw : w.shape = [B, fe.sequence_num, L]) :
    ∃ t, fe.get_feature w b rs = .ok t ∧ t.shape = [B, 512, fe.convT L] := by
  have hlen : w.shape.length = 3 := by rw [hw]; rfl
  have h2 : ¬ (w.shape.length = 2) := by omega
  have hd1 : dim1 w = fe.sequence_num := by simp [dim1, hw]
  have hd0 : dim0 w = B := by simp [dim0, hw]
  have hd2 : dim2 w = L := by simp [dim2, hw]
  rw [FeatureExtractor.get_feature]
  simp only [if_neg h2, if_pos hd1]
  refine ⟨_, rfl, ?_⟩
  by_cases hb : (rs && (fe.time_type == "lstm")) = true <;>
    simp [hb, FeatureExtractor.conv1x1Apply, permute120,
      FeatureExtractor.lstmApply, permute201, FeatureExtractor.convApply,
      dim0, dim2, hw, List.getD]

lemma mapM_ok_of_forall {α β : Type} (l : List α) (f : α → Except String β)
    (P : β → Prop) (h : ∀ i ∈ l, ∃ t, f i = .ok t ∧ P t) :
    ∃ ts, l.mapM f = .ok ts ∧ ts.length = l.length ∧ ∀ t ∈ ts, P t := by
  induction l with
  | nil => exact ⟨[], rfl, rfl, by simp⟩
  | cons a l ih =>
    obtain ⟨t, hft, hPt⟩ := h a (List.mem_cons_self a l)
    obtain ⟨ts, hts, hlen, hP⟩ := ih (fun i hi => h i (List.mem_cons_of_mem a hi))
    refine ⟨t :: ts, ?_, by simp [hlen], ?_⟩
    · rw [List.mapM_cons, hft, hts]; rfl
    · intro u hu
      rcases List.mem_cons.mp hu with rfl | hu
      · exact hPt
      · exact hP u hu

lemma sliceLast_window_shape (B s k tl i : Nat) (d : List Nat → ℝ)
    (hik : i < k) :
    (sliceLast ⟨[B, s, k * tl], d⟩ (i * tl) ((i + 1) * tl)).shape
      = [B, s, tl] := by
  have h1 : (i + 1) * tl ≤ k * tl := Nat.mul_le_mul_right tl (by omega)
  have h2 : i * tl ≤ k * tl := Nat.mul_le_mul_right tl (by omega)
  have h1' : i * tl + tl ≤ k * tl := by rw [← Nat.succ_mul]; exact h1
  simp only [sliceLast, dimLast]
  simp [min_eq_left h2, Nat.succ_mul, min_eq_left h1',
    Nat.add_sub_cancel_left, List.dropLast]

lemma unsqueezeDim1_shape (t : Tensor) (B C T : Nat)
    (h : t.shape = [B, C, T]) :
    (t.unsqueezeDim1).shape = [B, 1, C, T] := by
  simp [Tensor.unsqueezeDim1, h]

lemma catDim1_shape_all_one (ts : List Tensor) (B C T : Nat)
    (hne : ts ≠ []) (hall : ∀ t ∈ ts, t.shape = [B, 1, C, T]) :
    (catDim1 ts).shape = [B, ts.length, C, T] := by
  have hsum : (ts.map dim1).sum = ts.length := by
    have hmap : ts.map dim1 = ts.map (fun _ => 1) :=
      List.map_congr_left (fun t ht => by simp [dim1, hall t ht])
    simp [hmap]
  cases ts with
  | nil => exact absurd rfl hne
  | cons a l =>
    have ha := hall a (List.mem_cons_self a l)
    simp only [catDim1, List.headD_cons, ha, hsum]
    rfl

lemma meanDim1_shape (t : Tensor) (B n C T : Nat)
    (h : t.shape = [B, n, C, T]) :
    (meanDim1 t).shape = [B, C, T] := by
  simp [meanDim1, h]

lemma flatten1_shape (t : Tensor) (B C T : Nat) (h : t.shape = [B, C, T]) :
    (Tensor.flatten1 t).shape = [B, C * (T * 1)] := by
  simp [Tensor.flatten1, h]

lemma fc_dim_eq (fe : FeatureExtractor) :
    fe.fc_dim = 512 * fe.convT fe.time_len := by
  obtain ⟨t, ht, hs⟩ := get_feature_ok fe
    ⟨[1, fe.sequence_num, fe.time_len], fun _ => 0⟩ 1 fe.time_len 1 false rfl
  rw [FeatureExtractor.fc_dim, ht]
  simp [hs]

/-- C1 (amended): for every valid configuration (positive window length) and
every input series whose channel count matches `sequence_num` and whose
length is a *positive* multiple `k` of the window length, `forward` (with
`feature=None`, the shuffle being a permutation of `range k`) returns a
rank-2 tensor of shape `[batch, fc_dim]`, where `fc_dim` is the value the
constructor computes once from a zero window, the same for every call. -/
theorem c1_forward_shape (fe : FeatureExtractor) (B k : Nat)
    (d : List Nat → ℝ) (shuffled : List Nat) (r batch : Nat) (reset : Bool)
    (htl : 0 < fe.time_len) (hk : 0 < k)
    (hlen : shuffled.length = k) (hmem : ∀ i ∈ shuffled, i < k) :
    ∃ t, fe.forward ⟨[B, fe.sequence_num, k * fe.time_len], d⟩ none
        shuffled r batch reset = .ok t ∧
      t.shape = [B, fe.fc_dim] ∧ t.shape.length = 2 := by
  have hdl : dimLast ⟨[B, fe.sequence_num, k * fe.time_len], d⟩
      = k * fe.time_len := rfl
  have hdiv : (k * fe.time_len) % fe.time_len = 0 := Nat.mul_mod_left k _
  have hquot : (k * fe.time_len) / fe.time_len = k := Nat.mul_div_cancel k htl
  obtain ⟨ts, hmapM, hlen_ts, hall⟩ :=
    mapM_ok_of_forall (windowsUsed shuffled r k)
      (fun i => Except.map Tensor.unsqueezeDim1
        (fe.get_feature
          (sliceLast ⟨[B, fe.sequence_num, k * fe.time_len], d⟩
            (i * fe.time_len) ((i + 1) * fe.time_len)) batch reset))
      (fun t => t.shape = [B, 1, 512, fe.convT fe.time_len])
      (by
        intro i hi
        have hik : i < k := hmem i (List.take_subset _ _ hi)
        obtain ⟨t, hgt, hts⟩ := get_feature_ok fe
          (sliceLast ⟨[B, fe.sequence_num, k * fe.time_len], d⟩
            (i * fe.time_len) ((i + 1) * fe.time_len)) B fe.time_len batch
          reset (sliceLast_window_shape B fe.sequence_num k fe.time_len i d hik)
        exact ⟨t.unsqueezeDim1, by dsimp only; rw [hgt]; rfl,
          unsqueezeDim1_shape t _ _ _ hts⟩)
  have hts_ne : ts ≠ [] := by
    have hlpos : 0 < ts.length := by
      rw [hlen_ts]
      simp only [windowsUsed, offOf, List.length_take, hlen]
      omega
    exact List.ne_nil_of_length_pos hlpos
  have hcat := catDim1_shape_all_one ts B 512 (fe.convT fe.time_len) hts_ne hall
  have hmean := meanDim1_shape _ B ts.length 512 (fe.convT fe.time_len) hcat
  have hflat := flatten1_shape _ B 512 (fe.convT fe.time_len) hmean
  simp only [FeatureExtractor.forward, if_neg htl.ne', hdl, hdiv, if_pos rfl,
    hquot, if_neg hk.ne', hmapM]
  exact ⟨_, rfl, by rw [hflat, fc_dim_eq]; simp, by rw [hflat]; rfl⟩

/-- Witness for C1 at a concrete extractor and a 1-window series. -/
theorem c1_witness :
    ∃ t, exFE.forward ⟨[1, exFE.sequence_num, 1 * exFE.time_len], fun _ => 0⟩
        none [0] 0 1 true = .ok t ∧
      t.shape = [1, exFE.fc_dim] ∧ t.shape.length = 2 :=
  c1_forward_shape exFE 1 1 (fun _ => 0) [0] 0 1 true (by decide) (by decide)
    (by decide) (by decide)

/-- C1 counterexample for the claim as stated: a series of length 0 has
length a multiple of the window length (and the matching channel count), yet
`forward` raises (numpy rejects `randint(1, 1)`) instead of returning a
`[batch, fc_dim]` tensor. -/
theorem c1_counterexample :
    (0 : Nat) % exFE.time_len = 0 ∧
    exFE.forward ⟨[1, 1, 0], fun _ => 0⟩ none [] 0 1 true =
      .error "ValueError: low >= high" := ⟨rfl, rfl⟩

/-- C4: with a series of `k ≥ 1` exact windows and the shuffle a permutation
of `range k`, the randomly drawn subset size `off` satisfies
`1 ≤ off ≤ k`, and the window-index list `forward` maps `get_feature` over
(`windowsUsed`, the first `off` shuffled indices) has exactly `off` distinct
entries. -/
theorem c4_off_bounds (k r : Nat) (shuffled : List Nat) (hk : 0 < k)
    (hlen : shuffled.length = k) (hnd : shuffled.Nodup) :
    1 ≤ offOf r k ∧ offOf r k ≤ k ∧
    (windowsUsed shuffled r k).length = offOf r k ∧
    (windowsUsed shuffled r k).Nodup := by
  have hmod : r % k < k := Nat.mod_lt r hk
  refine ⟨by simp [offOf], by simp only [offOf]; omega, ?_, ?_⟩
  · rw [windowsUsed, List.length_take, hlen]
    have : offOf r k ≤ k := by simp only [offOf]; omega
    omega
  · exact hnd.sublist (List.take_sublist _ _)

/-- Witness for C4 at a concrete shuffle of two windows. -/
theorem c4_witness :
    1 ≤ offOf 0 2 ∧ offOf 0 2 ≤ 2 ∧
    (windowsUsed [1, 0] 0 2).length = offOf 0 2 ∧
    (windowsUsed [1, 0] 0 2).Nodup :=
  c4_off_bounds 2 0 [1, 0] (by decide) (by decide) (by decide)
